import Mathlib

/-
  Verification of the EmbyFixer backup/restore/replacement engine.

  The Python sources (src/utils.py, src/app.py, src/core/process_manager.py,
  src/state.py, src/core/utils.py) are shallowly embedded below.  The file
  system is a finite map from path strings to file contents plus a set of
  directory paths; fallible OS calls (copy, remove, mkdir, subprocess runs,
  permission checks) are driven by an explicit oracle record `Env`, so each
  Python function becomes a pure Lean function from an `Env` and an `FS` to a
  result value paired with the successor `FS`.
-/

namespace EmbyFixer

/-- Prefix test on strings, computed on the character lists so that it
reduces inside the kernel. -/
def strStartsWith (s pre : String) : Bool :=
  pre.toList.isPrefixOf s.toList

/-- Embeds Python os.path.dirname for slash separated paths without a
trailing slash: everything before the last slash, empty if there is none. -/
def dirname (p : String) : String :=
  String.mk (((p.toList.reverse.dropWhile (fun c => c ≠ '/')).drop 1).reverse)

/-- Substring test (Python operator in for strings). -/
def hasSub (s pat : String) : Bool :=
  let ls := s.toList
  let lp := pat.toList
  (List.range (ls.length + 1)).any (fun i => lp.isPrefixOf (ls.drop i))

/-- Python str.lower restricted to ASCII, as applied to tool output. -/
def strLower (s : String) : String :=
  String.mk (s.toList.map Char.toLower)

/-- The on-disk state: regular files (path, content) and directories.
`writeFile` conses, so the newest entry for a path wins on lookup. -/
structure FS where
  files : List (String × String)
  dirs : List String
deriving Repr, DecidableEq

def FS.fileExists (fs : FS) (p : String) : Bool :=
  fs.files.any (fun kv => kv.1 == p)

def FS.dirExists (fs : FS) (p : String) : Bool :=
  fs.dirs.any (fun q => q == p)

/-- Embeds os.path.exists: true for a file or a directory. -/
def FS.pathExists (fs : FS) (p : String) : Bool :=
  fs.fileExists p || fs.dirExists p

def FS.readFile (fs : FS) (p : String) : Option String :=
  (fs.files.find? (fun kv => kv.1 == p)).map (fun kv => kv.2)

def FS.writeFile (fs : FS) (p c : String) : FS :=
  { fs with files := (p, c) :: fs.files }

/-- Embeds os.remove (on success). -/
def FS.removeFile (fs : FS) (p : String) : FS :=
  { fs with files := fs.files.filter (fun kv => !(kv.1 == p)) }

/-- Embeds os.makedirs (on success). -/
def FS.mkdir (fs : FS) (p : String) : FS :=
  { fs with dirs := p :: fs.dirs }

/-- Embeds shutil.copy2 (on success): the destination receives the content of
the source.  The loops below only call it after an existence check, so the
default content for a missing source is never observable. -/
def FS.copyFile (fs : FS) (src dst : String) : FS :=
  fs.writeFile dst ((fs.readFile src).getD "")

/-- Embeds shutil.rmtree(dir, ignore_errors=True): removes the directory and
everything under it. -/
def FS.rmtree (fs : FS) (p : String) : FS :=
  { files := fs.files.filter (fun kv => !(kv.1 == p || strStartsWith kv.1 (p ++ "/"))),
    dirs := fs.dirs.filter (fun q => !(q == p || strStartsWith q (p ++ "/"))) }

/-- Outcome of subprocess.run([binary, "-version"], timeout=2) in
get_ffmpeg_architecture: normal completion with a return code and the
lowercased stderr text, a timeout, or another exception whose lowercased
text is carried. -/
inductive RunRes where
  | done (rc : Int) (stderrL : String)
  | timeout
  | exc (msgL : String)
deriving Repr, DecidableEq

/-- Oracles for every fallible or system dependent step of the Python code.
A field returning Bool set to true means the corresponding OS call raises
OSError at that path. -/
structure Env where
  /-- os.access(path, os.W_OK) -/
  writable : String → Bool
  /-- os.access(path, os.R_OK) -/
  readable : String → Bool
  /-- shutil.copy2 to this destination raises -/
  copyFails : String → Bool
  /-- os.remove of this path raises -/
  removeFails : String → Bool
  /-- os.makedirs of this path raises -/
  mkdirFails : String → Bool
  /-- open(path).read() raises (get_ffmpeg_architecture sniff step) -/
  readRaises : String → Bool
  /-- subprocess.run(["file", path]): none means the call raised, otherwise
  the return code and stdout text -/
  fileCmd : String → Option (Int × String)
  /-- subprocess.run([path, "-version"], timeout=2) -/
  runVer : String → RunRes
  /-- lowercased str(e) for the exception associated with the path when a
  probe of it raised -/
  excMsgL : String → String
  /-- subprocess.run([path]) in force_single_architecture: none means the
  call raised, otherwise the return code and the raw stderr text -/
  runBin : String → Option (Int × String)
  /-- os.path.dirname(os.path.dirname(os.path.abspath(utils.__file__))) -/
  projectRoot : String
  /-- os.path.dirname(os.path.abspath(utils.__file__)) -/
  currentDir : String
  /-- os.getcwd() -/
  cwd : String
  /-- datetime.now() rendered as a string -/
  timestamp : String

/-- An Env in which every OS call succeeds and every probe is inconclusive. -/
def envBenign : Env where
  writable := fun _ => true
  readable := fun _ => true
  copyFails := fun _ => false
  removeFails := fun _ => false
  mkdirFails := fun _ => false
  readRaises := fun _ => false
  fileCmd := fun _ => none
  runVer := fun _ => RunRes.timeout
  excMsgL := fun _ => ""
  runBin := fun _ => none
  projectRoot := "proj"
  currentDir := "proj/src"
  cwd := "proj"
  timestamp := "20250101_000000"

/-- The fixed required binary names, in the iteration order used by every
loop of src/utils.py (list literals and dict insertion order). -/
def reqBinaries : List String := ["ffmpeg", "ffprobe", "ffdetect"]

/-- Embeds get_system_architecture (src/utils.py lines 43-51 and
src/core/utils.py lines 44-52): platform.machine() is passed in as
`machine`; exact matches on x86_64 and arm64, any other value is returned
raw. -/
def get_system_architecture (machine : String) : String :=
  if machine = "x86_64" then "x86_64"
  else if machine = "arm64" then "arm64"
  else machine

/-- Embeds find_ffmpeg_binaries (src/utils.py lines 102-120): the enclosing
directory of the three binaries is the first of three candidate
subdirectories of the installation that contains all of them. -/
def find_ffmpeg_binaries (fs : FS) (emby_path : String) : Option String :=
  if !(fs.pathExists emby_path) then none
  else
    [emby_path ++ "/Contents/MacOS",
     emby_path ++ "/ffmpeg",
     emby_path ++ "/System/ffmpeg"].find? (fun p =>
      fs.pathExists (p ++ "/ffmpeg") && fs.pathExists (p ++ "/ffprobe")
        && fs.pathExists (p ++ "/ffdetect"))

/-- Embeds get_ffmpeg_paths (src/utils.py lines 82-100): locate the binary
directory, then check each required binary; the ok value is the directory
(the returned paths dict maps each name b to dir/b). -/
def get_ffmpeg_paths (fs : FS) (emby_path : String) : Except String String :=
  match find_ffmpeg_binaries fs emby_path with
  | none => .error "FFMPEG binaries not found"
  | some p =>
    if !(fs.pathExists (p ++ "/ffmpeg")) then .error "ffmpeg not found"
    else if !(fs.pathExists (p ++ "/ffprobe")) then .error "ffprobe not found"
    else if !(fs.pathExists (p ++ "/ffdetect")) then .error "ffdetect not found"
    else .ok p

/-- The Python value returned by backup_original_ffmpeg: either a bare bool
or a (bool, message) tuple.  The distinction matters because the caller in
replace_ffmpeg_binaries tests the value with Python `not`, and a nonempty
tuple is always truthy. -/
inductive PyRet where
  | bool (b : Bool)
  | pair (b : Bool) (msg : String)
deriving Repr, DecidableEq

/-- Python truthiness of a PyRet: a bare bool is its own truth value, a
two element tuple is truthy regardless of its first component. -/
def PyRet.truthy : PyRet → Bool
  | .bool b => b
  | .pair _ _ => true

/-- The copy loop of backup_original_ffmpeg (src/utils.py lines 241-259):
per binary, check the source exists and is readable, then copy into the
backup directory.  Failure returns from the function with the state as it
is at that point; no cleanup of already copied files happens.  The source
also chmods each copy, which does not change this model.  Messages that in
the source carry the OSError text are modeled without it. -/
def backup_loop (env : Env) (ffmpeg_path backup_dir : String) :
    List String → FS → (String × FS) ⊕ FS
  | [], fs => .inr fs
  | b :: rest, fs =>
    let src := ffmpeg_path ++ "/" ++ b
    let dst := backup_dir ++ "/" ++ b
    if !(fs.pathExists src) then .inl ("Original " ++ b ++ " not found at " ++ src, fs)
    else if !(env.readable src) then .inl ("Cannot read original " ++ b, fs)
    else if env.copyFails dst then .inl ("Failed to backup " ++ b, fs)
    else backup_loop env ffmpeg_path backup_dir rest (fs.copyFile src dst)

/-- Embeds backup_original_ffmpeg (src/utils.py lines 221-265).  Note the
return value shapes: success and the already-exists case return the bare
bool True, every structured failure returns a (False, message) tuple. -/
def backup_original_ffmpeg (env : Env) (fs : FS) (ffmpeg_path : String) :
    PyRet × FS :=
  let parent := dirname ffmpeg_path
  if !(env.writable parent) then
    (.pair false ("No write permission for directory: " ++ parent), fs)
  else
    let backup_dir := parent ++ "/ffmpeg_backup_original"
    if fs.pathExists backup_dir then (.bool true, fs)
    else if env.mkdirFails backup_dir then
      (.pair false "Failed to create backup directory", fs)
    else
      match backup_loop env ffmpeg_path backup_dir reqBinaries (fs.mkdir backup_dir) with
      | .inl (m, fs') => (.pair false m, fs')
      | .inr fs' => (.bool true, fs')

/-- The replacement loop of replace_ffmpeg_binaries (src/utils.py lines
288-313): per binary, check the replacement exists and is readable, remove
the installed binary if present, then copy the replacement in. -/
def replace_loop (env : Env) (replacement_dir ffmpeg_path : String) :
    List String → FS → (String × FS) ⊕ FS
  | [], fs => .inr fs
  | b :: rest, fs =>
    let src := replacement_dir ++ "/" ++ b
    let dst := ffmpeg_path ++ "/" ++ b
    if !(fs.pathExists src) then .inl ("Replacement " ++ b ++ " not found", fs)
    else if !(env.readable src) then .inl ("Cannot read replacement " ++ b, fs)
    else if fs.pathExists dst && env.removeFails dst then
      .inl ("Cannot remove existing " ++ b, fs)
    else
      let fs1 := if fs.pathExists dst then fs.removeFile dst else fs
      if env.copyFails dst then .inl ("Failed to copy " ++ b, fs1)
      else replace_loop env replacement_dir ffmpeg_path rest (fs1.copyFile src dst)

/-- Embeds replace_ffmpeg_binaries (src/utils.py lines 267-318).  The backup
result is tested with Python `not`, hence through PyRet.truthy: a
(False, message) failure tuple from backup_original_ffmpeg is truthy and
does NOT trigger the early return. -/
def replace_ffmpeg_binaries (env : Env) (fs : FS) (emby_path target_arch : String) :
    (Bool × String) × FS :=
  match find_ffmpeg_binaries fs emby_path with
  | none => ((false, "FFMPEG binaries not found"), fs)
  | some ffmpeg_path =>
    if !(env.writable ffmpeg_path) then
      ((false, "No write permission for FFMPEG directory: " ++ ffmpeg_path), fs)
    else
      let bres := backup_original_ffmpeg env fs ffmpeg_path
      if !(bres.1.truthy) then
        ((false, "Failed to backup original FFMPEG binaries"), bres.2)
      else
        let replacement_dir := "ffmpeg_binaries/" ++ target_arch
        if !(bres.2.pathExists replacement_dir) then
          ((false, "No replacement binaries found for " ++ target_arch), bres.2)
        else
          match replace_loop env replacement_dir ffmpeg_path reqBinaries bres.2 with
          | .inl (m, fs') => ((false, m), fs')
          | .inr fs' => ((true, "Successfully replaced FFMPEG binaries"), fs')

/-- The restore loop of restore_original_ffmpeg (src/utils.py lines 336-361):
per binary, check the backup copy exists and is readable, remove the
installed binary if present, then copy the backup copy back.  A missing
backup member is only discovered when its turn comes, after earlier
binaries have already been overwritten. -/
def restore_loop (env : Env) (backup_dir ffmpeg_path : String) :
    List String → FS → (String × FS) ⊕ FS
  | [], fs => .inr fs
  | b :: rest, fs =>
    let src := backup_dir ++ "/" ++ b
    let dst := ffmpeg_path ++ "/" ++ b
    if !(fs.pathExists src) then .inl ("Backup " ++ b ++ " not found", fs)
    else if !(env.readable src) then .inl ("Cannot read backup " ++ b, fs)
    else if fs.pathExists dst && env.removeFails dst then
      .inl ("Cannot remove existing " ++ b, fs)
    else
      let fs1 := if fs.pathExists dst then fs.removeFile dst else fs
      if env.copyFails dst then .inl ("Failed to restore " ++ b, fs1)
      else restore_loop env backup_dir ffmpeg_path rest (fs1.copyFile src dst)

/-- The marker cleanup of restore_original_ffmpeg (src/utils.py lines
363-373): each of the two test mode files is removed if present; a removal
failure is only logged as a warning and the file stays. -/
def cleanup_markers (env : Env) (parent : String) (fs : FS) : FS :=
  let f1 := parent ++ "/ffmpeg_test_mode"
  let f2 := parent ++ "/ffmpeg_architecture"
  let fs1 := if fs.pathExists f1 && !(env.removeFails f1) then fs.removeFile f1 else fs
  if fs1.pathExists f2 && !(env.removeFails f2) then fs1.removeFile f2 else fs1

/-- Embeds restore_original_ffmpeg (src/utils.py lines 320-378). -/
def restore_original_ffmpeg (env : Env) (fs : FS) (emby_path : String) :
    (Bool × String) × FS :=
  match find_ffmpeg_binaries fs emby_path with
  | none => ((false, "FFMPEG binaries not found"), fs)
  | some ffmpeg_path =>
    if !(env.writable ffmpeg_path) then
      ((false, "No write permission for FFMPEG directory: " ++ ffmpeg_path), fs)
    else
      let backup_dir := dirname ffmpeg_path ++ "/ffmpeg_backup_original"
      if !(fs.pathExists backup_dir) then ((false, "No backup found to restore"), fs)
      else
        match restore_loop env backup_dir ffmpeg_path reqBinaries fs with
        | .inl (m, fs') => ((false, m), fs')
        | .inr fs' =>
          ((true, "Successfully restored original FFMPEG binaries"),
           cleanup_markers env (dirname ffmpeg_path) fs')

/-- The install-and-verify loop of force_single_architecture (src/utils.py
lines 435-455): per binary, copy the test stand-in over the installed
binary, make it executable, run it and require return code 1 together with
the Bad CPU type marker on stderr.  A raising run is caught by the
enclosing handler and yields the generic error message. -/
def force_install_loop (env : Env) (test_resources ffmpeg_path : String) :
    List String → FS → (String × FS) ⊕ FS
  | [], fs => .inr fs
  | b :: rest, fs =>
    let src := test_resources ++ "/" ++ b
    let dst := ffmpeg_path ++ "/" ++ b
    if !(fs.pathExists src) then
      .inl ("Error: Test binary " ++ b ++ " not found at " ++ src, fs)
    else
      let fs1 := fs.copyFile src dst
      match env.runBin dst with
      | none => .inl ("Error setting up test environment: run failed", fs1)
      | some (rc, stderrTxt) =>
        if rc != 1 || !(hasSub stderrTxt "Bad CPU type in executable") then
          .inl ("Error: Test binary " ++ b ++ " not working as expected", fs1)
        else force_install_loop env test_resources ffmpeg_path rest fs1

/-- Embeds force_single_architecture (src/utils.py lines 380-466): creates
the ffmpeg_test directory, backs up whichever original binaries exist if no
backup directory is present yet (missing originals are silently skipped),
locates the test resources for the target architecture, installs and
verifies the stand-ins, and writes the test marker file. -/
def force_single_architecture (env : Env) (fs : FS) (ffmpeg_path target_arch : String) :
    String × FS :=
  if !(fs.pathExists ffmpeg_path) then ("Error: FFMPEG path does not exist", fs)
  else
    let parent := dirname ffmpeg_path
    let test_dir := parent ++ "/ffmpeg_test"
    let fs1 := fs.mkdir test_dir
    let backup_dir := parent ++ "/ffmpeg_backup_original"
    let fs2 :=
      if fs1.pathExists backup_dir then fs1
      else
        reqBinaries.foldl (fun acc b =>
          let src := ffmpeg_path ++ "/" ++ b
          if acc.pathExists src then acc.copyFile src (backup_dir ++ "/" ++ b) else acc)
          (fs1.mkdir backup_dir)
    let cands := [env.projectRoot ++ "/test_resources/" ++ target_arch,
                  env.currentDir ++ "/test_resources/" ++ target_arch,
                  env.cwd ++ "/test_resources/" ++ target_arch]
    match cands.find? (fun l => fs2.pathExists l) with
    | none => ("Test resources not found in any of these locations:", fs2)
    | some res =>
      match force_install_loop env res ffmpeg_path reqBinaries fs2 with
      | .inl (m, fs') => (m, fs')
      | .inr fs' =>
        let marker := test_dir ++ "/test_mode"
        ("Success: Test binaries installed. Emby Server should now show compatibility issues.",
         fs'.writeFile marker
           ("Architecture: " ++ target_arch ++ " Timestamp: " ++ env.timestamp))

/-- Embeds the force_test_mode endpoint (src/app.py lines 431-491): path and
architecture validation, then the guard rejecting a target equal to the
host architecture, and only past these the call into
force_single_architecture.  The source passes find_ffmpeg_binaries(path)
to it; when that is None the call raises inside the handler and the generic
error is returned. -/
def force_test_mode (env : Env) (machine : String) (fs : FS)
    (emby_path target_arch : String) : (Bool × String) × FS :=
  if !(fs.pathExists emby_path) then ((false, "Invalid Emby Server path"), fs)
  else if !(target_arch = "x86_64" ∨ target_arch = "arm64" : Bool) then
    ((false, "Invalid architecture specified"), fs)
  else
    let system_arch := get_system_architecture machine
    if target_arch = system_arch then
      ((false, "Cannot force " ++ target_arch ++
        " architecture as it matches your system. Please select the opposite architecture to simulate incompatibility."), fs)
    else
      match find_ffmpeg_binaries fs emby_path with
      | none => ((false, "Error setting up test mode: path is None"), fs)
      | some p =>
        let out := force_single_architecture env fs p target_arch
        ((strStartsWith out.1 "Success:", out.1), out.2)

/-- Embeds create_backup (src/utils.py lines 527-559).  The module
src/utils.py never defines the name `logger` (it only imports `logging`),
so every `logger.info` or `logger.error` call in this function raises
NameError.  In the branch where the backup already exists, `logger.info`
runs before the return and the NameError is caught by the outer handler,
which returns the failure dict.  In the copy loop, the `logger.info` after
the first successful copy raises, the inner handler then raises again at
`logger.error` before reaching the shutil.rmtree cleanup, and the outer
handler returns the failure dict with the partial backup left on disk.  If
the first copy itself fails, the inner handler raises at `logger.error` the
same way. -/
def create_backup (env : Env) (fs : FS) (emby_path : String) :
    (Bool × String) × FS :=
  let backup_dir := dirname emby_path ++ "/ffmpeg_backup"
  if fs.pathExists backup_dir then
    ((false, "Error creating backup: name \x27logger\x27 is not defined"), fs)
  else
    match get_ffmpeg_paths fs emby_path with
    | .error m => ((false, m), fs)
    | .ok p =>
      let fs1 := fs.mkdir backup_dir
      let dst := backup_dir ++ "/ffmpeg"
      if env.copyFails dst then
        ((false, "Error creating backup: name \x27logger\x27 is not defined"), fs1)
      else
        ((false, "Error creating backup: name \x27logger\x27 is not defined"),
         fs1.copyFile (p ++ "/ffmpeg") dst)

/-- The copy loop of create_initial_state_backup (src/utils.py lines
646-655): per binary, copy into the session backup directory; on a copy
failure the partially created backup directory is removed with
shutil.rmtree before the failure dict is returned.  This function uses the
`logging` module (which is defined), so its cleanup path is reachable. -/
def initial_backup_loop (env : Env) (backup_dir ffmpeg_dir : String) :
    List String → FS → (String × FS) ⊕ FS
  | [], fs => .inr fs
  | b :: rest, fs =>
    let dst := backup_dir ++ "/" ++ b
    if env.copyFails dst then
      .inl ("Error backing up initial state of " ++ b, fs.rmtree backup_dir)
    else initial_backup_loop env backup_dir ffmpeg_dir rest
      (fs.copyFile (ffmpeg_dir ++ "/" ++ b) dst)

/-- Embeds create_initial_state_backup (src/utils.py lines 629-662); the
timestamped directory name comes from the Env.  The assignment to the
INITIAL_STATE_BACKUP_DIR global on success is not needed by any claim and
is not modeled. -/
def create_initial_state_backup (env : Env) (fs : FS) (emby_path : String) :
    (Bool × String) × FS :=
  let backup_dir := dirname emby_path ++ "/ffmpeg_initial_state_" ++ env.timestamp
  match get_ffmpeg_paths fs emby_path with
  | .error m => ((false, m), fs)
  | .ok p =>
    match initial_backup_loop env backup_dir p reqBinaries (fs.mkdir backup_dir) with
    | .inl (m, fs') => ((false, m), fs')
    | .inr fs' => ((true, "Initial state backup created successfully"), fs')

/-- The per-binary branch of the loop in get_ffmpeg_architecture
(src/utils.py lines 129-205): in order, the test-binary content sniff, the
`file` tool probe, and the execution probe, each inconclusive step falling
through to the next.  Directory-name hints check arm64 before x86_64, as in
the source. -/
def detect_binary_arch (env : Env) (machine : String) (fs : FS)
    (ffmpeg_path binary : String) : Option String :=
  let binary_path := ffmpeg_path ++ "/" ++ binary
  if !(fs.pathExists binary_path) then none
  else
    let dirn := dirname binary_path
    let dirHint : Option String :=
      if hasSub dirn "arm64" then some "arm64"
      else if hasSub dirn "x86_64" then some "x86_64"
      else none
    let sniff : Option String :=
      if env.readRaises binary_path then none
      else
        match fs.readFile binary_path with
        | none => none
        | some content =>
          if hasSub content "#!/bin/bash" && hasSub content "Bad CPU type in executable"
          then dirHint else none
    match sniff with
    | some a => some a
    | none =>
      let fileStep : Option String :=
        match env.fileCmd binary_path with
        | none => none
        | some (rc, out) =>
          if rc == 0 then
            if hasSub (strLower out) "arm64" then some "arm64"
            else if hasSub (strLower out) "x86_64" then some "x86_64"
            else none
          else none
      match fileStep with
      | some a => some a
      | none =>
        match env.runVer binary_path with
        | .timeout => none
        | .exc m => if hasSub m "bad cpu type in executable" then dirHint else none
        | .done rc errL =>
          if rc == 0 then some (get_system_architecture machine)
          else if hasSub errL "bad cpu type in executable" then dirHint
          else if rc == 8 then
            match dirHint with
            | some a => some a
            | none =>
              match env.fileCmd binary_path with
              | none => none
              | some (_, out) =>
                if hasSub (strLower out) "arm64" then some "arm64"
                else if hasSub (strLower out) "x86_64" then some "x86_64"
                else none
          else none

/-- The `architectures` set of get_ffmpeg_architecture (src/utils.py lines
127-205) as the deduplicated list of detected values in insertion order.
Python builds a set; the insertion order is kept here so that statements
about which element was detected first can be made, while the choice the
source makes with list(architectures)[0] is a separate parameter. -/
def collect_architectures (env : Env) (machine : String) (fs : FS)
    (ffmpeg_path : String) : List String :=
  reqBinaries.foldl (fun acc b =>
    match detect_binary_arch env machine fs ffmpeg_path b with
    | some a => if acc.contains a then acc else acc ++ [a]
    | none => acc) []

/-- Embeds the reduction of get_ffmpeg_architecture (src/utils.py lines
207-215).  The source computes list(architectures)[0] on a Python set whose
iteration order depends on string hashing (randomized per process); `pick`
stands for that enumeration choice, so any function returning a member of
the list is a faithful instance. -/
def get_ffmpeg_architecture (env : Env) (machine : String)
    (pick : List String → String) (fs : FS) (ffmpeg_path : String) :
    Option String :=
  let archs := collect_architectures env machine fs ffmpeg_path
  if archs.length > 1 then some (pick archs)
  else if archs.length == 1 then some (pick archs)
  else none

/-- The state of ProcessManager (src/core/process_manager.py lines 10-14)
and equally of AppState (src/state.py lines 6-13): the tracked child
process (abstracted to a numeric id) and the running flag. -/
structure PMState where
  current_process : Option Nat
  is_running : Bool
deriving Repr, DecidableEq

/-- Embeds stop_process (src/core/process_manager.py lines 45-61 and the
identical src/state.py lines 56-72).  `terminateRaises` covers an exception
from terminate (or a non-timeout exception from wait), which jumps to the
handler that logs, sets the running flag to false and returns False,
leaving the process reference in place; `killRaises` covers wait timing out
followed by kill raising, reaching the same handler.  Otherwise the
reference is cleared, the flag set to false and True returned. -/
def stop_process (terminateRaises killRaises : Bool) (s : PMState) :
    Bool × PMState :=
  match s.current_process with
  | some _ =>
    if terminateRaises then (false, { s with is_running := false })
    else if killRaises then (false, { s with is_running := false })
    else (true, { current_process := none, is_running := false })
  | none => (true, { s with is_running := false })

/-- Embeds the is_running property (src/core/process_manager.py lines 16-25,
src/state.py lines 15-24) and the identically structured liveness refresh
in get_state: when a process reference is present and poll() reports it
finished, the state self-heals before the flag is returned. -/
def poll_running (pollFinished : Bool) (s : PMState) : Bool × PMState :=
  match s.current_process with
  | some _ =>
    if pollFinished then (false, { current_process := none, is_running := false })
    else (s.is_running, s)
  | none => (s.is_running, s)

/-! ### Helper lemmas about the file system model -/

theorem pathExists_writeFile_ne (fs : FS) (r c q : String) (h : r ≠ q) :
    (fs.writeFile r c).pathExists q = fs.pathExists q := by
  simp only [FS.writeFile, FS.pathExists, FS.fileExists, FS.dirExists,
    List.any_cons]
  have : (r == q) = false := by simpa using h
  simp [this]

theorem pathExists_removeFile_ne (fs : FS) (r q : String) (h : r ≠ q) :
    (fs.removeFile r).pathExists q = fs.pathExists q := by
  simp only [FS.removeFile, FS.pathExists, FS.fileExists, FS.dirExists]
  congr 1
  induction fs.files with
  | nil => rfl
  | cons kv l ih =>
    by_cases hk : kv.1 = r
    · have h1 : (kv.1 == r) = true := by simpa using hk
      have h2 : (kv.1 == q) = false := by
        simp only [beq_eq_false_iff_ne]
        exact fun e => h (hk ▸ e)
      simp [List.filter, h1, h2, List.any_cons, ih]
    · have h1 : (kv.1 == r) = false := by simpa using hk
      simp [List.filter, h1, List.any_cons, ih]

theorem readFile_writeFile_self (fs : FS) (r c : String) :
    (fs.writeFile r c).readFile r = some c := by
  simp [FS.writeFile, FS.readFile, List.find?]

theorem readFile_writeFile_ne (fs : FS) (r c q : String) (h : r ≠ q) :
    (fs.writeFile r c).readFile q = fs.readFile q := by
  have : (r == q) = false := by simpa using h
  simp [FS.writeFile, FS.readFile, List.find?, this]

theorem readFile_removeFile_ne (fs : FS) (r q : String) (h : r ≠ q) :
    (fs.removeFile r).readFile q = fs.readFile q := by
  simp only [FS.removeFile, FS.readFile]
  congr 1
  induction fs.files with
  | nil => rfl
  | cons kv l ih =>
    by_cases hk : kv.1 = r
    · have h1 : (kv.1 == r) = true := by simpa using hk
      have h2 : (kv.1 == q) = false := by
        simp only [beq_eq_false_iff_ne]
        exact fun e => h (hk ▸ e)
      simp [List.filter, h1, h2, List.find?, ih]
    · have h1 : (kv.1 == r) = false := by simpa using hk
      by_cases hq : kv.1 = q
      · have h2 : (kv.1 == q) = true := by simpa using hq
        simp [List.filter, h1, h2, List.find?]
      · have h2 : (kv.1 == q) = false := by simpa using hq
        simp [List.filter, h1, h2, List.find?, ih]

theorem pathExists_copyFile_ne (fs : FS) (s d q : String) (h : d ≠ q) :
    (fs.copyFile s d).pathExists q = fs.pathExists q := by
  simp [FS.copyFile, pathExists_writeFile_ne _ _ _ _ h]

/-- The state change of one restore/replace loop iteration (optional removal
of the destination, then the copy) does not affect any other path. -/
theorem pathExists_step (fs : FS) (src dst q : String) (h : dst ≠ q) :
    (((if fs.pathExists dst then fs.removeFile dst else fs)).copyFile src dst).pathExists q
      = fs.pathExists q := by
  by_cases hd : fs.pathExists dst
  · simp [hd, pathExists_copyFile_ne _ _ _ _ h, pathExists_removeFile_ne _ _ _ h]
  · simp [hd, pathExists_copyFile_ne _ _ _ _ h]

theorem pathExists_rmtree_self (fs : FS) (p : String) :
    (fs.rmtree p).pathExists p = false := by
  simp only [FS.rmtree, FS.pathExists, FS.fileExists, FS.dirExists,
    Bool.or_eq_false_iff]
  constructor
  · rw [List.any_eq_false]
    intro kv hkv
    rcases List.mem_filter.mp hkv with ⟨-, hcond⟩
    intro hq
    have : kv.1 = p := by simpa using hq
    simp [this] at hcond
  · rw [List.any_eq_false]
    intro q hq
    rcases List.mem_filter.mp hq with ⟨-, hcond⟩
    intro he
    have : q = p := by simpa using he
    simp [this] at hcond

/-! ### Lemmas about the restore loop -/

/-- If the restore loop runs to completion, every backup member it iterated
over was present when the loop started (the loop only writes to paths of
the binaries directory, which are separate from the backup paths). -/
theorem restore_loop_inr_present (env : Env) (bd p : String) :
    ∀ (l : List String) (fs fs' : FS),
      (∀ x ∈ l, ∀ b ∈ l, p ++ "/" ++ x ≠ bd ++ "/" ++ b) →
      restore_loop env bd p l fs = .inr fs' →
      ∀ b ∈ l, fs.pathExists (bd ++ "/" ++ b) = true := by
  intro l
  induction l with
  | nil => intro fs fs' _ _ b hb; simp at hb
  | cons x t ih =>
    intro fs fs' hsep heq b hb
    simp only [restore_loop] at heq
    split at heq
    · simp at heq
    · next c1 =>
      split at heq
      · simp at heq
      · split at heq
        · simp at heq
        · split at heq
          · simp at heq
          · rcases List.mem_cons.mp hb with hbx | hbt
            · subst hbx
              simpa using c1
            · have hne : p ++ "/" ++ x ≠ bd ++ "/" ++ b :=
                hsep x (List.mem_cons_self x t) b (List.mem_cons_of_mem x hbt)
              have hstep := pathExists_step fs (bd ++ "/" ++ x) (p ++ "/" ++ x)
                (bd ++ "/" ++ b) hne
              rw [← hstep]
              exact ih _ fs'
                (fun y hy b' hb' => hsep y (List.mem_cons_of_mem x hy) b'
                  (List.mem_cons_of_mem x hb'))
                heq b hbt

/-- If some backup member is missing when the restore loop starts and no
other fault interferes (sources readable, removals and copies succeed),
the loop returns the incomplete-backup failure naming a missing binary. -/
theorem restore_loop_missing (env : Env) (bd p : String) :
    ∀ (l : List String) (fs : FS),
      (∀ x ∈ l, ∀ b ∈ l, p ++ "/" ++ x ≠ bd ++ "/" ++ b) →
      (∀ b ∈ l, env.readable (bd ++ "/" ++ b) = true) →
      (∀ b ∈ l, env.removeFails (p ++ "/" ++ b) = false) →
      (∀ b ∈ l, env.copyFails (p ++ "/" ++ b) = false) →
      (∃ b ∈ l, fs.pathExists (bd ++ "/" ++ b) = false) →
      ∃ b ∈ l, fs.pathExists (bd ++ "/" ++ b) = false ∧
        ∃ fs', restore_loop env bd p l fs = .inl ("Backup " ++ b ++ " not found", fs') := by
  intro l
  induction l with
  | nil => intro fs _ _ _ _ hex; simp at hex
  | cons x t ih =>
    intro fs hsep hread hrm hcp hex
    by_cases c1 : fs.pathExists (bd ++ "/" ++ x)
    · rcases hex with ⟨b0, hb0, hmiss⟩
      have hb0t : b0 ∈ t := by
        rcases List.mem_cons.mp hb0 with h | h
        · subst h; rw [c1] at hmiss; exact absurd hmiss (by simp)
        · exact h
      have hpres : ∀ b ∈ t,
          (((if fs.pathExists (p ++ "/" ++ x) then fs.removeFile (p ++ "/" ++ x)
             else fs)).copyFile (bd ++ "/" ++ x) (p ++ "/" ++ x)).pathExists
            (bd ++ "/" ++ b) = fs.pathExists (bd ++ "/" ++ b) :=
        fun b hb => pathExists_step fs _ _ _
          (hsep x (List.mem_cons_self x t) b (List.mem_cons_of_mem x hb))
      obtain ⟨b, hbt, hm2, fs', heq'⟩ := ih
        (((if fs.pathExists (p ++ "/" ++ x) then fs.removeFile (p ++ "/" ++ x)
          else fs)).copyFile (bd ++ "/" ++ x) (p ++ "/" ++ x))
        (fun y hy b' hb' => hsep y (List.mem_cons_of_mem x hy) b'
          (List.mem_cons_of_mem x hb'))
        (fun b' hb' => hread b' (List.mem_cons_of_mem x hb'))
        (fun b' hb' => hrm b' (List.mem_cons_of_mem x hb'))
        (fun b' hb' => hcp b' (List.mem_cons_of_mem x hb'))
        ⟨b0, hb0t, by rw [hpres b0 hb0t]; exact hmiss⟩
      refine ⟨b, List.mem_cons_of_mem x hbt, ?_, fs', ?_⟩
      · rw [← hpres b hbt]; exact hm2
      · have e1 := hread x (List.mem_cons_self x t)
        have e2 := hrm x (List.mem_cons_self x t)
        have e3 := hcp x (List.mem_cons_self x t)
        simp only [restore_loop, c1, e1, e2, e3, Bool.not_true, Bool.and_false,
          Bool.false_eq_true, if_false]
        exact heq'
    · exact ⟨x, List.mem_cons_self x t, by simpa using c1,
        fs, by simp [restore_loop, c1]⟩

/-- If any copy in the initial-state backup loop fails, the loop returns a
failure whose state no longer contains the backup directory (the rmtree
cleanup ran). -/
theorem initial_backup_loop_fail (env : Env) (bd ffdir : String) :
    ∀ (l : List String) (fs : FS),
      (∃ b ∈ l, env.copyFails (bd ++ "/" ++ b) = true) →
      ∃ m fs', initial_backup_loop env bd ffdir l fs = .inl (m, fs') ∧
        fs'.pathExists bd = false := by
  intro l
  induction l with
  | nil => intro fs hex; simp at hex
  | cons x t ih =>
    intro fs hex
    by_cases c : env.copyFails (bd ++ "/" ++ x)
    · exact ⟨"Error backing up initial state of " ++ x, fs.rmtree bd,
        by simp [initial_backup_loop, c], pathExists_rmtree_self fs bd⟩
    · rcases hex with ⟨b0, hb0, hfail⟩
      have hb0t : b0 ∈ t := by
        rcases List.mem_cons.mp hb0 with h | h
        · subst h; exact absurd hfail (by simp [c])
        · exact h
      obtain ⟨m, fs', heq, hgone⟩ := ih
        (fs.copyFile (ffdir ++ "/" ++ x) (bd ++ "/" ++ x)) ⟨b0, hb0t, hfail⟩
      exact ⟨m, fs', by simp [initial_backup_loop, c]; exact heq, hgone⟩

/-! ### Lemmas about the architecture collection -/

theorem getLastD_mem (l : List String) (h : l ≠ []) : l.getLastD "" ∈ l := by
  induction l with
  | nil => exact absurd rfl h
  | cons x t ih =>
    cases t with
    | nil => simp
    | cons y u => simpa using Or.inr (ih (by simp))

/-- Every element of the collected architecture list was detected for some
required binary. -/
theorem collect_architectures_mem (env : Env) (machine : String) (fs : FS)
    (p a : String) (h : a ∈ collect_architectures env machine fs p) :
    ∃ b ∈ reqBinaries, detect_binary_arch env machine fs p b = some a := by
  have key : ∀ (l : List String) (acc : List String),
      a ∈ l.foldl (fun acc b =>
        match detect_binary_arch env machine fs p b with
        | some a => if acc.contains a then acc else acc ++ [a]
        | none => acc) acc →
      a ∈ acc ∨ ∃ b ∈ l, detect_binary_arch env machine fs p b = some a := by
    intro l
    induction l with
    | nil => intro acc h; exact Or.inl h
    | cons x t ih =>
      intro acc h
      rcases ih _ h with hacc | ⟨b, hb, hdet⟩
      · have hacc' : a ∈ (match detect_binary_arch env machine fs p x with
            | some v => if acc.contains v then acc else acc ++ [v]
            | none => acc) := hacc
        cases hd : detect_binary_arch env machine fs p x with
        | none => simp only [hd] at hacc'; exact Or.inl hacc'
        | some v =>
          simp only [hd] at hacc'
          by_cases hc : acc.contains v
          · rw [if_pos hc] at hacc'
            exact Or.inl hacc'
          · rw [if_neg hc] at hacc'
            rcases List.mem_append.mp hacc' with h1 | h1
            · exact Or.inl h1
            · have hav : a = v := by simpa using h1
              exact Or.inr ⟨x, List.mem_cons_self x t, by rw [hd, hav]⟩
      · exact Or.inr ⟨b, List.mem_cons_of_mem x hb, hdet⟩
  rcases key reqBinaries [] h with hacc | hex
  · simp at hacc
  · exact hex

/-- If no required binary's architecture is determinable, nothing is
collected. -/
theorem collect_architectures_nil (env : Env) (machine : String) (fs : FS)
    (p : String)
    (h : ∀ b ∈ reqBinaries, detect_binary_arch env machine fs p b = none) :
    collect_architectures env machine fs p = [] := by
  have h1 := h "ffmpeg" (by simp [reqBinaries])
  have h2 := h "ffprobe" (by simp [reqBinaries])
  have h3 := h "ffdetect" (by simp [reqBinaries])
  simp [collect_architectures, reqBinaries, List.foldl, h1, h2, h3]

/-- If every determinable binary agrees on one architecture and at least one
is determinable, exactly that architecture is collected. -/
theorem collect_architectures_agree (env : Env) (machine : String) (fs : FS)
    (p a : String)
    (hex : ∃ b ∈ reqBinaries, detect_binary_arch env machine fs p b = some a)
    (hall : ∀ b ∈ reqBinaries, detect_binary_arch env machine fs p b = none ∨
      detect_binary_arch env machine fs p b = some a) :
    collect_architectures env machine fs p = [a] := by
  have h1 := hall "ffmpeg" (by simp [reqBinaries])
  have h2 := hall "ffprobe" (by simp [reqBinaries])
  have h3 := hall "ffdetect" (by simp [reqBinaries])
  rcases h1 with h1 | h1 <;> rcases h2 with h2 | h2 <;> rcases h3 with h3 | h3 <;>
    simp [collect_architectures, reqBinaries, List.foldl, h1, h2, h3] <;>
    rcases hex with ⟨b, hb, hdet⟩ <;>
    simp [reqBinaries] at hb <;>
    rcases hb with hb | hb | hb <;> subst hb <;>
    simp [hdet] at h1 h2 h3 <;> simp_all

/-- If the restore loop runs to completion, the existence of any path that
is not one of the written binary destinations is unchanged. -/
theorem restore_loop_inr_preserves (env : Env) (bd p : String) :
    ∀ (l : List String) (fs fs' : FS) (q : String),
      (∀ b ∈ l, p ++ "/" ++ b ≠ q) →
      restore_loop env bd p l fs = .inr fs' →
      fs'.pathExists q = fs.pathExists q := by
  intro l
  induction l with
  | nil =>
    intro fs fs' q _ heq
    simp only [restore_loop] at heq
    cases heq
    rfl
  | cons x t ih =>
    intro fs fs' q hq heq
    simp only [restore_loop] at heq
    split at heq
    · simp at heq
    · split at heq
      · simp at heq
      · split at heq
        · simp at heq
        · split at heq
          · simp at heq
          · have h1 := ih _ fs' q
              (fun b hb => hq b (List.mem_cons_of_mem x hb)) heq
            rw [h1]
            exact pathExists_step fs _ _ q (hq x (List.mem_cons_self x t))

/-! ### Claim theorems -/

/-- C3 (counterexample): the claim says the machine-type synonyms AMD64 and
i386 map to x86_64 and aarch64 maps to arm64; the code returns each of
them raw. -/
theorem c3_counterexample_synonyms_not_mapped :
    get_system_architecture "AMD64" = "AMD64" ∧
    get_system_architecture "AMD64" ≠ "x86_64" ∧
    get_system_architecture "i386" = "i386" ∧
    get_system_architecture "i386" ≠ "x86_64" ∧
    get_system_architecture "aarch64" = "aarch64" ∧
    get_system_architecture "aarch64" ≠ "arm64" := by
  refine ⟨rfl, ?_, rfl, ?_, rfl, ?_⟩ <;> decide

/-- C3 (amended): get_system_architecture maps the exact strings x86_64 and
arm64 to themselves and returns any other machine string raw, without
failing; no synonym is normalized, so on every input it returns its
argument unchanged. -/
theorem c3_architecture_returns_machine_string (s : String) :
    get_system_architecture s = s := by
  unfold get_system_architecture
  split
  · next h => exact h.symm
  · split
    · next h => exact h.symm
    · rfl

/-- C9: after stop_process returns, whether true or false via the exception
handler, the running flag is false and any subsequent is_running or
get_state query reports not running. -/
theorem c9_stop_process_clears_running_flag (tr kr pf : Bool) (s : PMState) :
    (stop_process tr kr s).2.is_running = false ∧
    (poll_running pf (stop_process tr kr s).2).1 = false := by
  obtain ⟨cp, ir⟩ := s
  cases cp <;> cases tr <;> cases kr <;> cases pf <;>
    simp [stop_process, poll_running]

/-- C7: when the requested target architecture equals the host architecture,
the force-test-mode endpoint fails, changes nothing on disk, and (for the
two valid architecture names the endpoint accepts) reports the specific
rejection message. -/
theorem c7_force_test_mode_rejects_host_arch (env : Env) (machine : String)
    (fs : FS) (emby_path target : String)
    (hpath : fs.pathExists emby_path = true)
    (harch : target = get_system_architecture machine) :
    (force_test_mode env machine fs emby_path target).1.1 = false ∧
    (force_test_mode env machine fs emby_path target).2 = fs ∧
    ((target = "x86_64" ∨ target = "arm64") →
      (force_test_mode env machine fs emby_path target).1.2 =
        "Cannot force " ++ target ++
          " architecture as it matches your system. Please select the opposite architecture to simulate incompatibility.") := by
  unfold force_test_mode
  subst harch
  by_cases hv : get_system_architecture machine = "x86_64" ∨
      get_system_architecture machine = "arm64"
  · rcases hv with hv | hv <;> simp [hpath, hv]
  · simp [hpath, hv]

/-- C7 witness: forcing arm64 on an arm64 host with an existing
installation path is rejected with the specific message and an unchanged
file system. -/
theorem c7_force_test_mode_rejects_host_arch_witness :
    ((FS.mk [] ["emby"]).pathExists "emby" = true ∧
      "arm64" = get_system_architecture "arm64") ∧
    (force_test_mode envBenign "arm64" (FS.mk [] ["emby"]) "emby" "arm64").1.1 = false ∧
    (force_test_mode envBenign "arm64" (FS.mk [] ["emby"]) "emby" "arm64").2 =
      FS.mk [] ["emby"] ∧
    (("arm64" : String) = "x86_64" ∨ ("arm64" : String) = "arm64" →
      (force_test_mode envBenign "arm64" (FS.mk [] ["emby"]) "emby" "arm64").1.2 =
        "Cannot force " ++ "arm64" ++
          " architecture as it matches your system. Please select the opposite architecture to simulate incompatibility.") :=
  ⟨⟨by decide, by decide⟩,
   c7_force_test_mode_rejects_host_arch envBenign "arm64" (FS.mk [] ["emby"])
     "emby" "arm64" (by decide) (by decide)⟩

/-- C10: if the restore loop copies every binary back (it completes), and
removing the test-mode marker afterwards fails, restore_original_ffmpeg
still returns the success result and the marker file is still on disk. -/
theorem c10_restore_success_despite_marker_failure (env : Env) (fs : FS)
    (emby p : String)
    (hfind : find_ffmpeg_binaries fs emby = some p)
    (hw : env.writable p = true)
    (hb : fs.pathExists (dirname p ++ "/ffmpeg_backup_original") = true)
    (hloop : (restore_loop env (dirname p ++ "/ffmpeg_backup_original") p
      reqBinaries fs).isRight = true)
    (hmsep : ∀ b ∈ reqBinaries, p ++ "/" ++ b ≠ dirname p ++ "/ffmpeg_test_mode")
    (hm : fs.pathExists (dirname p ++ "/ffmpeg_test_mode") = true)
    (hrf : env.removeFails (dirname p ++ "/ffmpeg_test_mode") = true)
    (hne : dirname p ++ "/ffmpeg_architecture" ≠ dirname p ++ "/ffmpeg_test_mode") :
    (restore_original_ffmpeg env fs emby).1 =
      (true, "Successfully restored original FFMPEG binaries") ∧
    (restore_original_ffmpeg env fs emby).2.pathExists
      (dirname p ++ "/ffmpeg_test_mode") = true := by
  cases hres : restore_loop env (dirname p ++ "/ffmpeg_backup_original") p
      reqBinaries fs with
  | inl v => rw [hres] at hloop; simp [Sum.isRight] at hloop
  | inr fs' =>
    have hpm : fs'.pathExists (dirname p ++ "/ffmpeg_test_mode") = true := by
      rw [restore_loop_inr_preserves env _ p reqBinaries fs fs' _ hmsep hres]
      exact hm
    unfold restore_original_ffmpeg
    simp only [hfind, hw, hb, Bool.not_true, Bool.false_eq_true, if_false, hres]
    refine ⟨trivial, ?_⟩
    unfold cleanup_markers
    simp only [hpm, hrf, Bool.not_true, Bool.and_false, Bool.false_eq_true,
      if_false]
    split
    · rw [pathExists_removeFile_ne fs' _ _ hne]
      exact hpm
    · exact hpm

/-- A concrete installation for the C10 witness: binaries present, a
complete backup, and a test-mode marker file. -/
def fsC10 : FS :=
  { files := [("emby/Contents/MacOS/ffmpeg", "cur_f"),
              ("emby/Contents/MacOS/ffprobe", "cur_p"),
              ("emby/Contents/MacOS/ffdetect", "cur_d"),
              ("emby/Contents/ffmpeg_backup_original/ffmpeg", "orig_f"),
              ("emby/Contents/ffmpeg_backup_original/ffprobe", "orig_p"),
              ("emby/Contents/ffmpeg_backup_original/ffdetect", "orig_d"),
              ("emby/Contents/ffmpeg_test_mode", "Architecture: x86_64")],
    dirs := ["emby", "emby/Contents/ffmpeg_backup_original"] }

/-- An Env for the C10 witness in which only the removal of the test-mode
marker raises. -/
def envC10 : Env :=
  { envBenign with
    removeFails := fun q => q == "emby/Contents/ffmpeg_test_mode" }

/-- C10 witness: on the concrete installation the restore succeeds and the
marker file survives it. -/
theorem c10_restore_success_despite_marker_failure_witness :
    (find_ffmpeg_binaries fsC10 "emby" = some "emby/Contents/MacOS" ∧
      fsC10.pathExists (dirname "emby/Contents/MacOS" ++ "/ffmpeg_test_mode") = true) ∧
    (restore_original_ffmpeg envC10 fsC10 "emby").1 =
      (true, "Successfully restored original FFMPEG binaries") ∧
    (restore_original_ffmpeg envC10 fsC10 "emby").2.pathExists
      (dirname "emby/Contents/MacOS" ++ "/ffmpeg_test_mode") = true :=
  ⟨⟨by decide, by decide⟩,
   c10_restore_success_despite_marker_failure envC10 fsC10 "emby"
     "emby/Contents/MacOS" (by decide) (by decide) (by decide) (by decide)
     (by decide) (by decide) (by decide) (by decide)⟩

/-- C4: for an installation whose binaries directory is found and writable,
with readable backup members and no removal or copy faults: restore fails
with the no-backup message when the backup directory is absent; it fails
naming a missing backup member when the directory exists but lacks one; and
it returns success only if the backup directory exists and contains every
required binary. -/
theorem c4_restore_result_taxonomy (env : Env) (fs : FS) (emby p : String)
    (hfind : find_ffmpeg_binaries fs emby = some p)
    (hw : env.writable p = true)
    (hsep : ∀ x ∈ reqBinaries, ∀ b ∈ reqBinaries,
      p ++ "/" ++ x ≠ dirname p ++ "/ffmpeg_backup_original" ++ "/" ++ b)
    (hread : ∀ b ∈ reqBinaries,
      env.readable (dirname p ++ "/ffmpeg_backup_original" ++ "/" ++ b) = true)
    (hrm : ∀ b ∈ reqBinaries, env.removeFails (p ++ "/" ++ b) = false)
    (hcp : ∀ b ∈ reqBinaries, env.copyFails (p ++ "/" ++ b) = false) :
    (fs.pathExists (dirname p ++ "/ffmpeg_backup_original") = false →
      restore_original_ffmpeg env fs emby = ((false, "No backup found to restore"), fs)) ∧
    (fs.pathExists (dirname p ++ "/ffmpeg_backup_original") = true →
      (∃ b ∈ reqBinaries,
        fs.pathExists (dirname p ++ "/ffmpeg_backup_original" ++ "/" ++ b) = false) →
      (restore_original_ffmpeg env fs emby).1.1 = false ∧
      ∃ b ∈ reqBinaries,
        fs.pathExists (dirname p ++ "/ffmpeg_backup_original" ++ "/" ++ b) = false ∧
        (restore_original_ffmpeg env fs emby).1.2 = "Backup " ++ b ++ " not found") ∧
    ((restore_original_ffmpeg env fs emby).1.1 = true →
      fs.pathExists (dirname p ++ "/ffmpeg_backup_original") = true ∧
      ∀ b ∈ reqBinaries,
        fs.pathExists (dirname p ++ "/ffmpeg_backup_original" ++ "/" ++ b) = true) := by
  refine ⟨?_, ?_, ?_⟩
  · intro hnb
    unfold restore_original_ffmpeg
    simp [hfind, hw, hnb]
  · intro hb hex
    obtain ⟨b, hbm, hbmiss, fs', heq⟩ :=
      restore_loop_missing env (dirname p ++ "/ffmpeg_backup_original") p
        reqBinaries fs hsep hread hrm hcp hex
    unfold restore_original_ffmpeg
    simp only [hfind, hw, hb, Bool.not_true, Bool.false_eq_true, if_false, heq]
    exact ⟨by trivial, b, hbm, hbmiss, by trivial⟩
  · intro hsucc
    by_cases hb : fs.pathExists (dirname p ++ "/ffmpeg_backup_original") = true
    · refine ⟨hb, ?_⟩
      cases hres : restore_loop env (dirname p ++ "/ffmpeg_backup_original") p
          reqBinaries fs with
      | inl v =>
        unfold restore_original_ffmpeg at hsucc
        obtain ⟨m, fsv⟩ := v
        simp [hfind, hw, hb, hres] at hsucc
      | inr fs' =>
        exact restore_loop_inr_present env _ p reqBinaries fs fs' hsep hres
    · exfalso
      unfold restore_original_ffmpeg at hsucc
      simp [hfind, hw, hb] at hsucc

/-- A concrete installation for the C4 witness: binaries present, backup
directory present but its ffprobe member missing. -/
def fsC4 : FS :=
  { files := [("emby/Contents/MacOS/ffmpeg", "cur_f"),
              ("emby/Contents/MacOS/ffprobe", "cur_p"),
              ("emby/Contents/MacOS/ffdetect", "cur_d"),
              ("emby/Contents/ffmpeg_backup_original/ffmpeg", "orig_f"),
              ("emby/Contents/ffmpeg_backup_original/ffdetect", "orig_d")],
    dirs := ["emby", "emby/Contents/ffmpeg_backup_original"] }

/-- C4 witness: on the concrete installation with an incomplete backup,
restore fails and the failure names the missing member; the success clause
is exercised through its contrapositive by the failure flag. -/
theorem c4_restore_result_taxonomy_witness :
    (find_ffmpeg_binaries fsC4 "emby" = some "emby/Contents/MacOS" ∧
      fsC4.pathExists (dirname "emby/Contents/MacOS" ++ "/ffmpeg_backup_original") = true ∧
      fsC4.pathExists (dirname "emby/Contents/MacOS" ++ "/ffmpeg_backup_original" ++ "/" ++ "ffprobe") = false) ∧
    ((restore_original_ffmpeg envBenign fsC4 "emby").1.1 = false ∧
      ∃ b ∈ reqBinaries,
        fsC4.pathExists (dirname "emby/Contents/MacOS" ++ "/ffmpeg_backup_original" ++ "/" ++ b) = false ∧
        (restore_original_ffmpeg envBenign fsC4 "emby").1.2 = "Backup " ++ b ++ " not found") :=
  ⟨⟨by decide, by decide, by decide⟩,
   (c4_restore_result_taxonomy envBenign fsC4 "emby" "emby/Contents/MacOS"
      (by decide) (by decide) (by decide) (by decide) (by decide)
      (by decide)).2.1 (by decide)
     ⟨"ffprobe", by decide, by decide⟩⟩

/-- C2 (amended): when the backup directory exists, its ffmpeg member is
present (and readable, with no removal or copy fault) but its ffprobe
member is missing, restore fails naming ffprobe — yet by then the installed
ffmpeg binary has already been overwritten with the backup copy, so the
binaries directory is not left unchanged. -/
theorem c2_restore_incomplete_overwrites_earlier (env : Env) (fs : FS)
    (emby p : String)
    (hfind : find_ffmpeg_binaries fs emby = some p)
    (hw : env.writable p = true)
    (hb : fs.pathExists (dirname p ++ "/ffmpeg_backup_original") = true)
    (hpresf : fs.pathExists (dirname p ++ "/ffmpeg_backup_original" ++ "/" ++ "ffmpeg") = true)
    (hmissp : fs.pathExists (dirname p ++ "/ffmpeg_backup_original" ++ "/" ++ "ffprobe") = false)
    (hreadf : env.readable (dirname p ++ "/ffmpeg_backup_original" ++ "/" ++ "ffmpeg") = true)
    (hrmf : env.removeFails (p ++ "/" ++ "ffmpeg") = false)
    (hcpf : env.copyFails (p ++ "/" ++ "ffmpeg") = false)
    (hne1 : p ++ "/" ++ "ffmpeg" ≠ dirname p ++ "/ffmpeg_backup_original" ++ "/" ++ "ffprobe")
    (hne2 : p ++ "/" ++ "ffmpeg" ≠ dirname p ++ "/ffmpeg_backup_original" ++ "/" ++ "ffmpeg") :
    (restore_original_ffmpeg env fs emby).1 = (false, "Backup ffprobe not found") ∧
    (restore_original_ffmpeg env fs emby).2.readFile (p ++ "/" ++ "ffmpeg") =
      some ((fs.readFile (dirname p ++ "/ffmpeg_backup_original" ++ "/" ++ "ffmpeg")).getD "") := by
  have hm1 : ((if fs.pathExists (p ++ "/" ++ "ffmpeg")
        then fs.removeFile (p ++ "/" ++ "ffmpeg") else fs).copyFile
        (dirname p ++ "/ffmpeg_backup_original" ++ "/" ++ "ffmpeg")
        (p ++ "/" ++ "ffmpeg")).pathExists
      (dirname p ++ "/ffmpeg_backup_original" ++ "/" ++ "ffprobe") = false := by
    rw [pathExists_step fs _ _ _ hne1]
    exact hmissp
  have hloop : restore_loop env (dirname p ++ "/ffmpeg_backup_original") p
      reqBinaries fs =
      .inl ("Backup ffprobe not found",
        (if fs.pathExists (p ++ "/" ++ "ffmpeg")
          then fs.removeFile (p ++ "/" ++ "ffmpeg") else fs).copyFile
          (dirname p ++ "/ffmpeg_backup_original" ++ "/" ++ "ffmpeg")
          (p ++ "/" ++ "ffmpeg")) := by
    simp only [reqBinaries, restore_loop, hpresf, hreadf, hrmf, hcpf, hm1,
      Bool.not_true, Bool.not_false, Bool.and_false, Bool.false_eq_true,
      if_false, if_true]
    rfl
  have hread1 : ((if fs.pathExists (p ++ "/" ++ "ffmpeg")
        then fs.removeFile (p ++ "/" ++ "ffmpeg") else fs)).readFile
      (dirname p ++ "/ffmpeg_backup_original" ++ "/" ++ "ffmpeg") =
      fs.readFile (dirname p ++ "/ffmpeg_backup_original" ++ "/" ++ "ffmpeg") := by
    split
    · exact readFile_removeFile_ne fs _ _ hne2
    · rfl
  unfold restore_original_ffmpeg
  simp only [hfind, hw, hb, Bool.not_true, Bool.false_eq_true, if_false, hloop]
  refine ⟨by trivial, ?_⟩
  show (FS.copyFile _ _ _).readFile _ = _
  unfold FS.copyFile
  rw [readFile_writeFile_self, hread1]

/-- C2 (counterexample): a concrete installation whose backup lacks ffprobe;
restore fails, but the installed ffmpeg has been replaced by the backup
copy, so the claim that every binary is left unchanged is false. -/
def fsC2 : FS :=
  { files := [("emby/Contents/MacOS/ffmpeg", "replaced_f"),
              ("emby/Contents/MacOS/ffprobe", "replaced_p"),
              ("emby/Contents/MacOS/ffdetect", "replaced_d"),
              ("emby/Contents/ffmpeg_backup_original/ffmpeg", "orig_f"),
              ("emby/Contents/ffmpeg_backup_original/ffdetect", "orig_d")],
    dirs := ["emby", "emby/Contents/ffmpeg_backup_original"] }

/-- C2 (counterexample theorem): the concrete run fails on the missing
ffprobe member after already overwriting the installed ffmpeg binary. -/
theorem c2_counterexample_overwritten_binary :
    (restore_original_ffmpeg envBenign fsC2 "emby").1 =
      (false, "Backup ffprobe not found") ∧
    fsC2.readFile "emby/Contents/MacOS/ffmpeg" = some "replaced_f" ∧
    (restore_original_ffmpeg envBenign fsC2 "emby").2.readFile
      "emby/Contents/MacOS/ffmpeg" = some "orig_f" := by
  refine ⟨?_, ?_, ?_⟩ <;> decide

/-- C2 witness (for the amended theorem): the general statement applied to
the concrete installation. -/
theorem c2_restore_incomplete_overwrites_earlier_witness :
    (find_ffmpeg_binaries fsC2 "emby" = some "emby/Contents/MacOS" ∧
      fsC2.pathExists (dirname "emby/Contents/MacOS" ++ "/ffmpeg_backup_original" ++ "/" ++ "ffprobe") = false) ∧
    (restore_original_ffmpeg envBenign fsC2 "emby").1 =
      (false, "Backup ffprobe not found") ∧
    (restore_original_ffmpeg envBenign fsC2 "emby").2.readFile
      ("emby/Contents/MacOS" ++ "/" ++ "ffmpeg") =
      some ((fsC2.readFile (dirname "emby/Contents/MacOS" ++
        "/ffmpeg_backup_original" ++ "/" ++ "ffmpeg")).getD "") :=
  ⟨⟨by decide, by decide⟩,
   c2_restore_incomplete_overwrites_earlier envBenign fsC2 "emby"
     "emby/Contents/MacOS" (by decide) (by decide) (by decide) (by decide)
     (by decide) (by decide) (by decide) (by decide) (by decide) (by decide)⟩

/-- A concrete installation for C1: binaries present, replacement binaries
for arm64 available, no backup yet. -/
def fsC1 : FS :=
  { files := [("emby/Contents/MacOS/ffmpeg", "orig_f"),
              ("emby/Contents/MacOS/ffprobe", "orig_p"),
              ("emby/Contents/MacOS/ffdetect", "orig_d"),
              ("ffmpeg_binaries/arm64/ffmpeg", "new_f"),
              ("ffmpeg_binaries/arm64/ffprobe", "new_p"),
              ("ffmpeg_binaries/arm64/ffdetect", "new_d")],
    dirs := ["emby", "ffmpeg_binaries/arm64"] }

/-- An Env for C1 in which the binaries directory is writable but its parent
(where the backup directory would be created) is not, so backup creation
fails with a (False, message) tuple. -/
def envC1 : Env :=
  { envBenign with writable := fun q => q == "emby/Contents/MacOS" }

/-- C1 (bug evaluation): backup_original_ffmpeg fails with a structured
(False, message) tuple, which is truthy under the Python `not` test in
replace_ffmpeg_binaries, so the replacement proceeds and succeeds: the
binaries are replaced although no backup exists and backup creation
failed.  This contradicts the no-replacement-without-backup invariant the
code itself tries to enforce with its early return. -/
theorem c1_replace_proceeds_without_backup :
    (backup_original_ffmpeg envC1 fsC1 "emby/Contents/MacOS").1 =
      PyRet.pair false "No write permission for directory: emby/Contents" ∧
    (replace_ffmpeg_binaries envC1 fsC1 "emby" "arm64").1 =
      (true, "Successfully replaced FFMPEG binaries") ∧
    (replace_ffmpeg_binaries envC1 fsC1 "emby" "arm64").2.pathExists
      "emby/Contents/ffmpeg_backup_original" = false ∧
    (replace_ffmpeg_binaries envC1 fsC1 "emby" "arm64").2.readFile
      "emby/Contents/MacOS/ffmpeg" = some "new_f" ∧
    fsC1.readFile "emby/Contents/MacOS/ffmpeg" = some "orig_f" := by
  refine ⟨?_, ?_, ?_, ?_, ?_⟩ <;> decide

/-- A concrete installation for C5: binaries present and a ffmpeg_backup
directory already created by a first create_backup call, plus an existing
ffmpeg_backup_original directory for the backup_original_ffmpeg conjunct. -/
def fsC5 : FS :=
  { files := [("apps/emby/Contents/MacOS/ffmpeg", "f"),
              ("apps/emby/Contents/MacOS/ffprobe", "p"),
              ("apps/emby/Contents/MacOS/ffdetect", "d")],
    dirs := ["apps/emby", "apps/ffmpeg_backup",
             "apps/emby/Contents/ffmpeg_backup_original"] }

/-- C5 (bug evaluation): with the backup directory already present, a second
create_backup call is a no-op on disk but returns a failure dict, because
the `logger.info` call in its already-exists branch raises NameError
(src/utils.py defines no `logger`) and the outer handler reports it.  The
other cited function, backup_original_ffmpeg, does behave as the claim
states: bare True and no change. -/
theorem c5_create_backup_second_call_fails :
    (create_backup envBenign fsC5 "apps/emby").1 =
      (false, "Error creating backup: name \x27logger\x27 is not defined") ∧
    (create_backup envBenign fsC5 "apps/emby").2 = fsC5 ∧
    (backup_original_ffmpeg envBenign fsC5 "apps/emby/Contents/MacOS").1 =
      PyRet.bool true ∧
    (backup_original_ffmpeg envBenign fsC5 "apps/emby/Contents/MacOS").2 = fsC5 := by
  refine ⟨?_, ?_, ?_, ?_⟩ <;> decide

/-- A concrete installation for C6: binaries present, no backup yet. -/
def fsC6 : FS :=
  { files := [("emby/Contents/MacOS/ffmpeg", "orig_f"),
              ("emby/Contents/MacOS/ffprobe", "orig_p"),
              ("emby/Contents/MacOS/ffdetect", "orig_d")],
    dirs := ["emby"] }

/-- An Env for C6 in which copying ffprobe into the backup fails. -/
def envC6 : Env :=
  { envBenign with
    copyFails := fun q => q == "emby/Contents/ffmpeg_backup_original/ffprobe" }

/-- C6 (counterexample): when copying ffprobe fails, backup_original_ffmpeg
returns a failure but the partially created backup directory, already
holding the ffmpeg copy, survives on disk — it even makes a later call
report that a backup exists. -/
theorem c6_counterexample_backup_left_behind :
    (backup_original_ffmpeg envC6 fsC6 "emby/Contents/MacOS").1 =
      PyRet.pair false "Failed to backup ffprobe" ∧
    (backup_original_ffmpeg envC6 fsC6 "emby/Contents/MacOS").2.pathExists
      "emby/Contents/ffmpeg_backup_original" = true ∧
    (backup_original_ffmpeg envC6 fsC6 "emby/Contents/MacOS").2.fileExists
      "emby/Contents/ffmpeg_backup_original/ffmpeg" = true := by
  refine ⟨?_, ?_, ?_⟩ <;> decide

/-- C6 (amended): create_initial_state_backup does remove the partially
created backup directory on any copy failure before returning the failure
(backup_original_ffmpeg does not, and the equivalent cleanup in
create_backup is unreachable because of the undefined `logger`). -/
theorem c6_initial_backup_cleanup_on_failure (env : Env) (fs : FS)
    (emby p : String)
    (hpaths : get_ffmpeg_paths fs emby = .ok p)
    (hfail : ∃ b ∈ reqBinaries,
      env.copyFails (dirname emby ++ "/ffmpeg_initial_state_" ++ env.timestamp
        ++ "/" ++ b) = true) :
    (create_initial_state_backup env fs emby).1.1 = false ∧
    (create_initial_state_backup env fs emby).2.pathExists
      (dirname emby ++ "/ffmpeg_initial_state_" ++ env.timestamp) = false := by
  obtain ⟨m, fs', heq, hgone⟩ := initial_backup_loop_fail env
    (dirname emby ++ "/ffmpeg_initial_state_" ++ env.timestamp) p reqBinaries
    (fs.mkdir (dirname emby ++ "/ffmpeg_initial_state_" ++ env.timestamp)) hfail
  unfold create_initial_state_backup
  simp only [hpaths, heq]
  exact ⟨by trivial, hgone⟩

/-- An Env for the C6 witness in which copying ffprobe into the timestamped
initial-state backup fails. -/
def envC6b : Env :=
  { envBenign with
    copyFails := fun q =>
      q == "apps/ffmpeg_initial_state_20250101_000000/ffprobe" }

/-- A concrete installation for the C6 witness. -/
def fsC6b : FS :=
  { files := [("apps/emby/Contents/MacOS/ffmpeg", "f"),
              ("apps/emby/Contents/MacOS/ffprobe", "p"),
              ("apps/emby/Contents/MacOS/ffdetect", "d")],
    dirs := ["apps/emby"] }

/-- C6 witness: on the concrete installation the failing initial-state
backup call reports failure and the timestamped backup directory is gone. -/
theorem c6_initial_backup_cleanup_on_failure_witness :
    (get_ffmpeg_paths fsC6b "apps/emby" = .ok "apps/emby/Contents/MacOS" ∧
      (∃ b ∈ reqBinaries,
        envC6b.copyFails (dirname "apps/emby" ++ "/ffmpeg_initial_state_" ++
          envC6b.timestamp ++ "/" ++ b) = true)) ∧
    (create_initial_state_backup envC6b fsC6b "apps/emby").1.1 = false ∧
    (create_initial_state_backup envC6b fsC6b "apps/emby").2.pathExists
      (dirname "apps/emby" ++ "/ffmpeg_initial_state_" ++ envC6b.timestamp) = false :=
  ⟨⟨by rfl, by decide⟩,
   c6_initial_backup_cleanup_on_failure envC6b fsC6b "apps/emby"
     "apps/emby/Contents/MacOS" (by rfl) (by decide)⟩

/-- One legitimate instance of the Python set enumeration order used by
list(architectures)[0]: the order that enumerates the collected values last
to first.  CPython string hashing is randomized per process, so no fixed
order is guaranteed. -/
def pickLast (l : List String) : String := l.getLastD ""

/-- C8 (amended): the reduction of get_ffmpeg_architecture, for any
enumeration order of the architectures set: no determinable binary gives
None; otherwise SOME detected architecture (an arbitrary member of the set,
not necessarily the first detected) is returned; and when every
determinable binary agrees, exactly that architecture is returned. -/
theorem c8_architecture_reduction (env : Env) (machine : String)
    (pick : List String → String) (fs : FS) (p : String)
    (hpick : ∀ l : List String, l ≠ [] → pick l ∈ l) :
    (get_ffmpeg_architecture env machine pick fs p = none ↔
      collect_architectures env machine fs p = []) ∧
    (collect_architectures env machine fs p ≠ [] →
      ∃ a, get_ffmpeg_architecture env machine pick fs p = some a ∧
        a ∈ collect_architectures env machine fs p ∧
        ∃ b ∈ reqBinaries, detect_binary_arch env machine fs p b = some a) ∧
    (∀ a, (∃ b ∈ reqBinaries, detect_binary_arch env machine fs p b = some a) →
      (∀ b ∈ reqBinaries, detect_binary_arch env machine fs p b = none ∨
        detect_binary_arch env machine fs p b = some a) →
      get_ffmpeg_architecture env machine pick fs p = some a) := by
  have haux : collect_architectures env machine fs p ≠ [] →
      get_ffmpeg_architecture env machine pick fs p =
        some (pick (collect_architectures env machine fs p)) := by
    intro hne
    unfold get_ffmpeg_architecture
    by_cases h1 : (collect_architectures env machine fs p).length > 1
    · simp [h1]
    · have h2 : (collect_architectures env machine fs p).length = 1 := by
        cases hc : collect_architectures env machine fs p with
        | nil => exact absurd hc hne
        | cons a t =>
          rw [hc] at h1
          simp only [List.length_cons] at h1 ⊢
          omega
      simp [h1, h2]
  refine ⟨?_, ?_, ?_⟩
  · constructor
    · intro hnone
      by_contra hne
      rw [haux hne] at hnone
      exact Option.noConfusion hnone
    · intro hnil
      unfold get_ffmpeg_architecture
      simp [hnil]
  · intro hne
    refine ⟨pick (collect_architectures env machine fs p), haux hne,
      hpick _ hne, ?_⟩
    exact collect_architectures_mem env machine fs p _ (hpick _ hne)
  · intro a hex hall
    have hagree := collect_architectures_agree env machine fs p a hex hall
    have hne : collect_architectures env machine fs p ≠ [] := by
      rw [hagree]; exact List.cons_ne_nil a []
    rw [haux hne, hagree]
    have := hpick [a] (List.cons_ne_nil a [])
    simp only [List.mem_singleton] at this
    rw [this]

/-- A concrete binary set for C8 in which the `file` probe reports arm64 for
ffmpeg, x86_64 for ffprobe, and nothing usable for ffdetect. -/
def fsC8 : FS :=
  { files := [("bins/ffmpeg", "ELF"), ("bins/ffprobe", "ELF"),
              ("bins/ffdetect", "ELF")],
    dirs := [] }

/-- An Env for C8 giving the mixed `file` outputs. -/
def envC8 : Env :=
  { envBenign with
    fileCmd := fun q =>
      if q == "bins/ffmpeg" then some (0, "mach-o 64-bit executable arm64")
      else if q == "bins/ffprobe" then some (0, "mach-o 64-bit executable x86_64")
      else some (0, "data") }

/-- C8 (counterexample): the architectures detected in iteration order are
arm64 (first) then x86_64, yet under the enumeration order pickLast — a
legitimate Python set order — the function returns x86_64, not the first
detected architecture, refuting the claimed deterministic first-in-order
tie-break. -/
theorem c8_counterexample_not_first_detected :
    collect_architectures envC8 "arm64" fsC8 "bins" = ["arm64", "x86_64"] ∧
    (collect_architectures envC8 "arm64" fsC8 "bins").headD "" = "arm64" ∧
    get_ffmpeg_architecture envC8 "arm64" pickLast fsC8 "bins" = some "x86_64" ∧
    ("x86_64" : String) ≠ "arm64" := by
  refine ⟨?_, ?_, ?_, ?_⟩ <;> decide

/-- C8 witness: the reduction theorem applied to the concrete mixed binary
set with the pickLast enumeration order. -/
theorem c8_architecture_reduction_witness :
    (get_ffmpeg_architecture envC8 "arm64" pickLast fsC8 "bins" = none ↔
      collect_architectures envC8 "arm64" fsC8 "bins" = []) ∧
    (collect_architectures envC8 "arm64" fsC8 "bins" ≠ [] →
      ∃ a, get_ffmpeg_architecture envC8 "arm64" pickLast fsC8 "bins" = some a ∧
        a ∈ collect_architectures envC8 "arm64" fsC8 "bins" ∧
        ∃ b ∈ reqBinaries, detect_binary_arch envC8 "arm64" fsC8 "bins" b = some a) ∧
    (∀ a, (∃ b ∈ reqBinaries, detect_binary_arch envC8 "arm64" fsC8 "bins" b = some a) →
      (∀ b ∈ reqBinaries, detect_binary_arch envC8 "arm64" fsC8 "bins" b = none ∨
        detect_binary_arch envC8 "arm64" fsC8 "bins" b = some a) →
      get_ffmpeg_architecture envC8 "arm64" pickLast fsC8 "bins" = some a) :=
  c8_architecture_reduction envC8 "arm64" pickLast fsC8 "bins"
    (fun l hl => getLastD_mem l hl)

end EmbyFixer
